import Mathlib

/-!
Verification of the parking-lot manager (`parkingLot.py`).

The source is a single-threaded, synchronous Python program.  We embed it
shallowly:

* `VehicleType` / `SpotType` mirror the two enums.
* `ParkingSpot`, `Vehicle`, `ParkingTicket` (here `TicketRec`) mirror the
  entity classes; the mutable `_occupied` flag becomes a `Bool` field and
  mutation becomes functional update.
* Python's `time.time()` floats are modelled as rationals (`ℚ`); every
  arithmetic operation the fee computation performs (`-`, `/`, `max`, `*`)
  is exact on the values the claims mention, so `ℚ` is a faithful model.
* The ticket dictionary (`self._tickets`) is an insertion-ordered
  association list with Python-dict semantics: assignment overwrites an
  existing key in place or appends a fresh one; `del` removes the key;
  `in` / lookup scan by key.
* A `ParkingTicket` holds a reference to the spot *object*; since spots
  are only ever appended to `self._spots`, object identity is modelled by
  the spot's position (index) in that list.
* `print` calls become an explicit list of emitted lines, and the amounts
  passed to `payment_strategy.pay` are recorded so that claims about the
  payment capability being (or not being) invoked are statable.
* Both `park_vehicle` and `exit_vehicle` return the Python return value
  explicitly: `park_vehicle` returns the ticket or `none`;
  `exit_vehicle` has no `return` with a value on any path, so its return
  value is the constant `none : Option Bool` (Python `None`, where the
  spec expects a boolean).
-/

inductive VehicleType where
  | bike
  | car
  | truck
deriving DecidableEq, Repr

inductive SpotType where
  | compact
  | regular
  | large
deriving DecidableEq, Repr

/-- The hardcoded `mapping` dictionary inside `ParkingLot._find_spot`. -/
def mapping : VehicleType → SpotType
  | .bike => .compact
  | .car => .regular
  | .truck => .large

/-- `Vehicle.__init__`: plate number and vehicle type, immutable. -/
structure Vehicle where
  number : String
  type : VehicleType
deriving DecidableEq, Repr

/-- `ParkingSpot`: id, fixed type, mutable occupancy flag. -/
structure ParkingSpot where
  id : Nat
  type : SpotType
  occupied : Bool
deriving DecidableEq, Repr

/-- `ParkingSpot.__init__(spot_id, spot_type)`: starts free. -/
def mkSpot (spotId : Nat) (spotType : SpotType) : ParkingSpot :=
  { id := spotId, type := spotType, occupied := false }

/-- `ParkingTicket`: id, vehicle, reference to the spot (modelled by the
spot's index in the registry list), entry timestamp captured at creation. -/
structure TicketRec where
  ticketId : Nat
  vehicle : Vehicle
  spotIdx : Nat
  entryTime : ℚ
deriving DecidableEq, Repr

/-- `HourlyPricing.calculate_fee`: `hours = (exit - entry) / 3600;
return max(1, hours) * 50`. -/
def calculate_fee (entryTime exitTime : ℚ) : ℚ :=
  max 1 ((exitTime - entryTime) / 3600) * 50

/-- The state of the `ParkingLot` singleton: `_spots`, `_tickets`,
`_ticket_counter`. -/
structure LotState where
  spots : List ParkingSpot
  tickets : List (Nat × TicketRec)
  ticketCounter : Nat
deriving DecidableEq, Repr

/-- `ParkingLot.__init__` with the spot list already registered via
`add_spot` (each `ParkingSpot(id, type)` starts free). -/
def initState (config : List (Nat × SpotType)) : LotState :=
  { spots := config.map (fun c => mkSpot c.1 c.2), tickets := [], ticketCounter := 1 }

/-- Python-dict lookup `d[k]` / membership `k in d`: first (only) entry
with the key. -/
def dictLookup (d : List (Nat × TicketRec)) (k : Nat) : Option TicketRec :=
  match d with
  | [] => none
  | p :: rest => if p.1 = k then some p.2 else dictLookup rest k

/-- Python-dict assignment `d[k] = v`: overwrite in place when the key
exists, append otherwise. -/
def dictInsert (d : List (Nat × TicketRec)) (k : Nat) (v : TicketRec) : List (Nat × TicketRec) :=
  match d with
  | [] => [(k, v)]
  | p :: rest => if p.1 = k then (k, v) :: rest else p :: dictInsert rest k v

/-- Python `del d[k]` (only called after a membership check). -/
def dictDelete (d : List (Nat × TicketRec)) (k : Nat) : List (Nat × TicketRec) :=
  d.filter (fun p => p.1 ≠ k)

/-- Apply `f` to the element at index `i`, leaving the rest unchanged
(models mutation of the spot object referenced by a ticket). -/
def modifyAt (f : ParkingSpot → ParkingSpot) : List ParkingSpot → Nat → List ParkingSpot
  | [], _ => []
  | s :: rest, 0 => f s :: rest
  | s :: rest, n + 1 => s :: modifyAt f rest n

/-- `ParkingLot._find_spot`: scan `self._spots` in order, return the first
spot whose type matches `mapping[vehicle_type]` and which is available.
The returned spot object is modelled by its index. -/
def find_spot (vehicleType : VehicleType) : List ParkingSpot → Option Nat
  | [] => none
  | s :: rest =>
      if s.type = mapping vehicleType ∧ s.occupied = false then some 0
      else (find_spot vehicleType rest).map (· + 1)

/-- Result of `ParkingLot.park_vehicle`: new state, returned value
(`ticket` or `None`), and printed lines. -/
structure ParkResult where
  state : LotState
  ret : Option TicketRec
  printed : List String
deriving DecidableEq, Repr

/-- `ParkingLot.park_vehicle`: find a matching free spot; if none, print
"Parking Full" and return `None` with no state change; otherwise occupy
the spot, mint a ticket with the current counter and timestamp, store it
in the dict, print, increment the counter and return the ticket. -/
def park_vehicle (st : LotState) (v : Vehicle) (now : ℚ) : ParkResult :=
  match find_spot v.type st.spots with
  | none => { state := st, ret := none, printed := ["Parking Full"] }
  | some i =>
      let t : TicketRec :=
        { ticketId := st.ticketCounter, vehicle := v, spotIdx := i, entryTime := now }
      { state :=
          { spots := modifyAt (fun s => { s with occupied := true }) st.spots i,
            tickets := dictInsert st.tickets st.ticketCounter t,
            ticketCounter := st.ticketCounter + 1 },
        ret := some t,
        printed := ["Ticket generated: " ++ toString st.ticketCounter] }

/-- Result of `ParkingLot.exit_vehicle`: new state, returned value (the
Python function returns `None` on every path, recorded as
`none : Option Bool`), printed lines, and the amounts passed to
`payment_strategy.pay`. -/
structure ExitResult where
  state : LotState
  ret : Option Bool
  printed : List String
  payCalls : List ℚ
deriving DecidableEq, Repr

/-- `ParkingLot.exit_vehicle`: unknown ticket prints "Invalid Ticket" and
changes nothing; otherwise compute the fee and call `pay`; on success free
the ticket's spot, delete the ticket and print "Exit successful"; on
failure change nothing (and print nothing). -/
def exit_vehicle (st : LotState) (ticketId : Nat) (pay : ℚ → Bool) (now : ℚ) : ExitResult :=
  match dictLookup st.tickets ticketId with
  | none => { state := st, ret := none, printed := ["Invalid Ticket"], payCalls := [] }
  | some t =>
      let fee := calculate_fee t.entryTime now
      if pay fee then
        { state :=
            { spots := modifyAt (fun s => { s with occupied := false }) st.spots t.spotIdx,
              tickets := dictDelete st.tickets ticketId,
              ticketCounter := st.ticketCounter },
          ret := none, printed := ["Exit successful"], payCalls := [fee] }
      else
        { state := st, ret := none, printed := [], payCalls := [fee] }

/-- One external operation on the lot (a call through a gate, with the
ambient clock value made explicit). -/
inductive Op where
  | park (v : Vehicle) (now : ℚ)
  | depart (ticketId : Nat) (pay : ℚ → Bool) (now : ℚ)

/-- State transition of a single operation. -/
def step (st : LotState) : Op → LotState
  | .park v now => (park_vehicle st v now).state
  | .depart tid pay now => (exit_vehicle st tid pay now).state

/-- Run a sequence of operations from a state. -/
def run (st : LotState) : List Op → LotState
  | [] => st
  | op :: ops => run (step st op) ops

/-- Ticket ids issued by the successful `park_vehicle` calls of a run, in
order. -/
def issuedIds (st : LotState) : List Op → List Nat
  | [] => []
  | op :: ops =>
      match op with
      | .park v now =>
          match (park_vehicle st v now).ret with
          | some t => t.ticketId :: issuedIds (step st op) ops
          | none => issuedIds (step st op) ops
      | .depart _ _ _ => issuedIds (step st op) ops

/-- The loop condition of `_find_spot` for one spot. -/
def spotMatches (vehicleType : VehicleType) (s : ParkingSpot) : Prop :=
  s.type = mapping vehicleType ∧ s.occupied = false

instance (vt : VehicleType) (s : ParkingSpot) : Decidable (spotMatches vt s) := by
  unfold spotMatches; infer_instance

/-- The keys of the ticket dictionary, in insertion order. -/
def keys (d : List (Nat × TicketRec)) : List Nat := d.map Prod.fst

theorem find_spot_some_spec (vt : VehicleType) :
    ∀ (l : List ParkingSpot) (i : Nat), find_spot vt l = some i →
      ∃ h : i < l.length, spotMatches vt (l.get ⟨i, h⟩) ∧
        ∀ j (hj : j < i), ¬ spotMatches vt (l.get ⟨j, Nat.lt_trans hj h⟩) := by
  intro l
  induction l with
  | nil => intro i h; simp [find_spot] at h
  | cons s rest ih =>
      intro i h
      by_cases hm : spotMatches vt s
      · have h0 : i = 0 := by
          simp only [find_spot,
            if_pos (show s.type = mapping vt ∧ s.occupied = false from hm)] at h
          exact (Option.some.inj h).symm
        subst h0
        exact ⟨Nat.succ_pos _, by simpa using hm, fun j hj => absurd hj (Nat.not_lt_zero j)⟩
      · have h' : (find_spot vt rest).map (· + 1) = some i := by
          simp only [find_spot,
            if_neg (show ¬(s.type = mapping vt ∧ s.occupied = false) from hm)] at h
          exact h
        rcases Option.map_eq_some'.mp h' with ⟨i', hi', rfl⟩
        rcases ih i' hi' with ⟨hlt, hmat, hfirst⟩
        refine ⟨Nat.succ_lt_succ hlt, by simpa using hmat, ?_⟩
        intro j hj
        match j with
        | 0 => simpa using hm
        | k + 1 => simpa using hfirst k (Nat.lt_of_succ_lt_succ hj)

theorem find_spot_none_spec (vt : VehicleType) :
    ∀ l : List ParkingSpot, find_spot vt l = none ↔
      ∀ j (h : j < l.length), ¬ spotMatches vt (l.get ⟨j, h⟩) := by
  intro l
  induction l with
  | nil => simp [find_spot]
  | cons s rest ih =>
      by_cases hm : spotMatches vt s
      · simp only [find_spot,
          if_pos (show s.type = mapping vt ∧ s.occupied = false from hm)]
        constructor
        · intro h; exact absurd h (by simp)
        · intro h; exact absurd hm (h 0 (Nat.succ_pos _))
      · simp only [find_spot,
          if_neg (show ¬(s.type = mapping vt ∧ s.occupied = false) from hm),
          Option.map_eq_none', ih]
        constructor
        · intro h j hj
          match j with
          | 0 => simpa using hm
          | k + 1 => exact h k (Nat.lt_of_succ_lt_succ hj)
        · intro h j hj
          simpa using h (j + 1) (Nat.succ_lt_succ hj)

theorem length_modifyAt (f : ParkingSpot → ParkingSpot) :
    ∀ (l : List ParkingSpot) (i : Nat), (modifyAt f l i).length = l.length := by
  intro l
  induction l with
  | nil => intro i; rfl
  | cons s rest ih =>
      intro i
      match i with
      | 0 => rfl
      | n + 1 => simp [modifyAt, ih]

theorem get_modifyAt_self (f : ParkingSpot → ParkingSpot) :
    ∀ (l : List ParkingSpot) (i : Nat) (h : i < l.length)
      (h' : i < (modifyAt f l i).length),
      (modifyAt f l i).get ⟨i, h'⟩ = f (l.get ⟨i, h⟩) := by
  intro l
  induction l with
  | nil => intro i h; exact absurd h (Nat.not_lt_zero i)
  | cons s rest ih =>
      intro i h h'
      match i with
      | 0 => rfl
      | n + 1 => exact ih n (Nat.lt_of_succ_lt_succ h) _

theorem get_modifyAt_ne (f : ParkingSpot → ParkingSpot) :
    ∀ (l : List ParkingSpot) (i j : Nat) (h : j < l.length)
      (h' : j < (modifyAt f l i).length), j ≠ i →
      (modifyAt f l i).get ⟨j, h'⟩ = l.get ⟨j, h⟩ := by
  intro l
  induction l with
  | nil => intro i j h; exact absurd h (Nat.not_lt_zero j)
  | cons s rest ih =>
      intro i j h h' hne
      match i, j with
      | 0, 0 => exact absurd rfl hne
      | 0, k + 1 => rfl
      | n + 1, 0 => rfl
      | n + 1, k + 1 =>
          exact ih n k (Nat.lt_of_succ_lt_succ h) _ (fun hk => hne (by rw [hk]))

theorem dictLookup_eq_none_iff (d : List (Nat × TicketRec)) (k : Nat) :
    dictLookup d k = none ↔ k ∉ keys d := by
  induction d with
  | nil => simp [dictLookup, keys]
  | cons p rest ih =>
      by_cases hk : p.1 = k
      · simp [dictLookup, hk, keys]
      · simp [dictLookup, hk, keys, ih, Ne.symm hk]

theorem dictLookup_mem (d : List (Nat × TicketRec)) (k : Nat) (t : TicketRec)
    (h : dictLookup d k = some t) : (k, t) ∈ d := by
  induction d with
  | nil => simp [dictLookup] at h
  | cons p rest ih =>
      rcases p with ⟨pk, pv⟩
      by_cases hk : pk = k
      · subst hk
        simp only [dictLookup, if_pos rfl] at h
        rw [← Option.some.inj h]
        exact List.mem_cons_self _ _
      · simp only [dictLookup, if_neg hk] at h
        exact List.mem_cons_of_mem _ (ih h)

theorem dictInsert_of_not_mem (d : List (Nat × TicketRec)) (k : Nat) (v : TicketRec)
    (h : k ∉ keys d) : dictInsert d k v = d ++ [(k, v)] := by
  induction d with
  | nil => rfl
  | cons p rest ih =>
      simp only [keys, List.map_cons, List.mem_cons] at h
      push_neg at h
      simp [dictInsert, Ne.symm h.1, ih (by simpa [keys] using h.2)]

theorem dictLookup_append_not_mem (d d' : List (Nat × TicketRec)) (k : Nat)
    (h : k ∉ keys d) : dictLookup (d ++ d') k = dictLookup d' k := by
  induction d with
  | nil => rfl
  | cons p rest ih =>
      simp only [keys, List.map_cons, List.mem_cons] at h
      push_neg at h
      simpa [dictLookup, Ne.symm h.1] using ih (by simpa [keys] using h.2)

theorem mem_dictDelete (d : List (Nat × TicketRec)) (k : Nat) (p : Nat × TicketRec) :
    p ∈ dictDelete d k ↔ p ∈ d ∧ p.1 ≠ k := by
  simp [dictDelete]

theorem dictDelete_sublist (d : List (Nat × TicketRec)) (k : Nat) :
    List.Sublist (dictDelete d k) d := List.filter_sublist d

theorem dictLookup_dictInsert_self (d : List (Nat × TicketRec)) (k : Nat) (v : TicketRec) :
    dictLookup (dictInsert d k v) k = some v := by
  induction d with
  | nil => simp [dictInsert, dictLookup]
  | cons p rest ih =>
      by_cases hk : p.1 = k
      · simp [dictInsert, hk, dictLookup]
      · simp [dictInsert, hk, dictLookup, ih]

theorem dictLookup_dictDelete_self (d : List (Nat × TicketRec)) (k : Nat) :
    dictLookup (dictDelete d k) k = none := by
  rw [dictLookup_eq_none_iff]
  intro hmem
  rcases List.mem_map.mp hmem with ⟨p, hp, hpk⟩
  exact absurd hpk ((mem_dictDelete _ _ _).mp hp).2

/-- The state invariant maintained by the lot manager: ticket keys are the
ticket ids, unique and below the counter; tickets reference valid,
pairwise distinct spots; and a spot is occupied exactly when some live
ticket references it. -/
structure LotInv (st : LotState) : Prop where
  keysNodup : (keys st.tickets).Nodup
  keyEq : ∀ p ∈ st.tickets, p.1 = p.2.ticketId
  idLt : ∀ p ∈ st.tickets, p.2.ticketId < st.ticketCounter
  idxLt : ∀ p ∈ st.tickets, p.2.spotIdx < st.spots.length
  refsNodup : (st.tickets.map (fun p => p.2.spotIdx)).Nodup
  occIff : ∀ i (h : i < st.spots.length),
    (st.spots.get ⟨i, h⟩).occupied = true ↔ ∃ p ∈ st.tickets, p.2.spotIdx = i

theorem Inv_initState (config : List (Nat × SpotType)) : LotInv (initState config) := by
  refine ⟨by simp [initState, keys], by simp [initState], by simp [initState],
    by simp [initState], by simp [initState], ?_⟩
  intro i h
  simp only [initState, List.get_eq_getElem, List.getElem_map]
  simp [mkSpot]

theorem Inv_park (st : LotState) (v : Vehicle) (now : ℚ) (h : LotInv st) :
    LotInv (park_vehicle st v now).state := by
  rcases hf : find_spot v.type st.spots with _ | i
  · simpa [park_vehicle, hf] using h
  · rcases find_spot_some_spec v.type st.spots i hf with ⟨hi, hmat, -⟩
    have hc : st.ticketCounter ∉ keys st.tickets := by
      intro hmem
      rcases List.mem_map.mp hmem with ⟨p, hp, hpk⟩
      have := h.idLt p hp
      rw [← h.keyEq p hp, hpk] at this
      exact absurd this (lt_irrefl _)
    have hni : ∀ p ∈ st.tickets, p.2.spotIdx ≠ i := by
      intro p hp hpi
      have hocc : (st.spots.get ⟨i, hi⟩).occupied = true :=
        (h.occIff i hi).mpr ⟨p, hp, hpi⟩
      rw [hmat.2] at hocc
      exact Bool.false_ne_true hocc
    have hins : dictInsert st.tickets st.ticketCounter
        ⟨st.ticketCounter, v, i, now⟩ = st.tickets ++
        [(st.ticketCounter, ⟨st.ticketCounter, v, i, now⟩)] :=
      dictInsert_of_not_mem _ _ _ hc
    simp only [park_vehicle, hf, hins]
    constructor
    · simpa [keys, List.nodup_append] using ⟨h.keysNodup, by simpa [keys] using hc⟩
    · intro p hp
      rcases List.mem_append.mp hp with hp | hp
      · exact h.keyEq p hp
      · simp at hp; subst hp; rfl
    · intro p hp
      rcases List.mem_append.mp hp with hp | hp
      · exact Nat.lt_succ_of_lt (h.idLt p hp)
      · simp at hp; subst hp; exact Nat.lt_succ_self _
    · intro p hp
      rw [length_modifyAt]
      rcases List.mem_append.mp hp with hp | hp
      · exact h.idxLt p hp
      · simp at hp; subst hp; exact hi
    · rw [List.map_append]
      refine List.nodup_append.mpr ⟨h.refsNodup, List.nodup_singleton _, ?_⟩
      intro x hx hx'
      have hxi : x = i := by simpa using hx'
      rcases List.mem_map.mp hx with ⟨p, hp, hpi⟩
      exact hni p hp (hpi.trans hxi)
    · intro j hj
      have hj' : j < st.spots.length := by simpa [length_modifyAt] using hj
      by_cases hji : j = i
      · subst hji
        rw [get_modifyAt_self _ _ _ hj']
        refine ⟨fun _ => ?_, fun _ => rfl⟩
        exact ⟨(st.ticketCounter, ⟨st.ticketCounter, v, j, now⟩),
          List.mem_append_right _ (by simp), rfl⟩
      · rw [get_modifyAt_ne _ _ _ _ hj' _ hji]
        rw [h.occIff j hj']
        constructor
        · rintro ⟨p, hp, hpj⟩
          exact ⟨p, List.mem_append_left _ hp, hpj⟩
        · rintro ⟨p, hp, hpj⟩
          rcases List.mem_append.mp hp with hp | hp
          · exact ⟨p, hp, hpj⟩
          · simp at hp; subst hp; exact absurd hpj.symm hji

theorem Inv_exit (st : LotState) (tid : Nat) (pay : ℚ → Bool) (now : ℚ) (h : LotInv st) :
    LotInv (exit_vehicle st tid pay now).state := by
  rcases hl : dictLookup st.tickets tid with _ | t
  · simpa [exit_vehicle, hl] using h
  · rcases hp : pay (calculate_fee t.entryTime now) with _ | _
    · simpa [exit_vehicle, hl, hp] using h
    · have htmem : (tid, t) ∈ st.tickets := dictLookup_mem _ _ _ hl
      have keyInj := List.inj_on_of_nodup_map h.keysNodup
      have spotInj := List.inj_on_of_nodup_map h.refsNodup
      have hidx : t.spotIdx < st.spots.length := h.idxLt (tid, t) htmem
      simp only [exit_vehicle, hl, hp, if_pos]
      refine ⟨?_, ?_, ?_, ?_, ?_, ?_⟩
      · exact h.keysNodup.sublist ((dictDelete_sublist _ _).map Prod.fst)
      · intro p hp'
        exact h.keyEq p ((mem_dictDelete _ _ _).mp hp').1
      · intro p hp'
        exact h.idLt p ((mem_dictDelete _ _ _).mp hp').1
      · intro p hp'
        rw [length_modifyAt]
        exact h.idxLt p ((mem_dictDelete _ _ _).mp hp').1
      · exact h.refsNodup.sublist
          ((dictDelete_sublist _ _).map (fun p => p.2.spotIdx))
      · intro j hj
        have hj' : j < st.spots.length := by simpa [length_modifyAt] using hj
        by_cases hji : j = t.spotIdx
        · subst hji
          rw [get_modifyAt_self _ _ _ hj']
          constructor
          · intro hfalse; exact absurd hfalse (by simp)
          · rintro ⟨p, hp', hpj⟩
            rcases (mem_dictDelete _ _ _).mp hp' with ⟨hpmem, hpk⟩
            have hpt : p = (tid, t) := spotInj hpmem htmem hpj
            exact absurd (by rw [hpt]) hpk
        · rw [get_modifyAt_ne _ _ _ _ hj' _ hji]
          rw [h.occIff j hj']
          constructor
          · rintro ⟨p, hpmem, hpj⟩
            refine ⟨p, (mem_dictDelete _ _ _).mpr ⟨hpmem, ?_⟩, hpj⟩
            intro hpk
            have hpt : p = (tid, t) := keyInj hpmem htmem hpk
            rw [hpt] at hpj
            exact hji hpj.symm
          · rintro ⟨p, hp', hpj⟩
            exact ⟨p, ((mem_dictDelete _ _ _).mp hp').1, hpj⟩

theorem Inv_step (st : LotState) (op : Op) (h : LotInv st) : LotInv (step st op) := by
  rcases op with ⟨v, now⟩ | ⟨tid, pay, now⟩
  · exact Inv_park st v now h
  · exact Inv_exit st tid pay now h

theorem Inv_run (ops : List Op) : ∀ st : LotState, LotInv st → LotInv (run st ops) := by
  induction ops with
  | nil => intro st h; exact h
  | cons op ops ih => intro st h; exact ih (step st op) (Inv_step st op h)

/-- A concrete state with one live ticket (id 1, spot index 0), used to
instantiate the universally quantified theorems below. -/
def sampleState : LotState :=
  { spots := [{ id := 1, type := .regular, occupied := true }],
    tickets := [(1, ⟨1, ⟨"KA01AB1234", .car⟩, 0, 0⟩)],
    ticketCounter := 2 }

/-- C3: for every entry time `e` and exit time `x ≥ e`, the hourly fee is
`max(1, (x − e)/3600) * 50`, with no rounding up of fractional hours: any
elapsed duration of at most one hour is billed exactly 50 (in particular
300 seconds), and 5400 seconds is billed exactly 75. -/
theorem c3_hourly_fee_formula :
    (∀ entryTime exitTime : ℚ, entryTime ≤ exitTime →
      calculate_fee entryTime exitTime = max 1 ((exitTime - entryTime) / 3600) * 50) ∧
    (∀ entryTime exitTime : ℚ, entryTime ≤ exitTime → exitTime - entryTime ≤ 3600 →
      calculate_fee entryTime exitTime = 50) ∧
    calculate_fee 0 300 = 50 ∧ calculate_fee 0 5400 = 75 := by
  refine ⟨fun e x _ => rfl, fun e x he hx => ?_, by norm_num [calculate_fee],
    by norm_num [calculate_fee]⟩
  have h1 : (x - e) / 3600 ≤ 1 := by
    rw [div_le_one (by norm_num)]
    linarith
  rw [calculate_fee, max_eq_left h1]
  norm_num

theorem c3_hourly_fee_formula_witness : (0 : ℚ) ≤ 300 ∧ (300 : ℚ) - 0 ≤ 3600 ∧
    calculate_fee 0 300 = 50 :=
  ⟨by norm_num, by norm_num,
    c3_hourly_fee_formula.2.1 0 300 (by norm_num) (by norm_num)⟩

/-- C2: `_find_spot` returns the index of the first spot in registration
order whose class equals the fixed mapping of the vehicle class and whose
occupancy flag is false (so it never returns a spot of a different class),
and it returns `none` exactly when no such spot exists. -/
theorem c2_find_spot_first_free_match (spots : List ParkingSpot) (vt : VehicleType) :
    (∀ i, find_spot vt spots = some i →
      ∃ h : i < spots.length,
        (spots.get ⟨i, h⟩).type = mapping vt ∧
        (spots.get ⟨i, h⟩).occupied = false ∧
        ∀ j (hj : j < i),
          ¬((spots.get ⟨j, Nat.lt_trans hj h⟩).type = mapping vt ∧
            (spots.get ⟨j, Nat.lt_trans hj h⟩).occupied = false)) ∧
    (find_spot vt spots = none ↔
      ∀ j (h : j < spots.length),
        ¬((spots.get ⟨j, h⟩).type = mapping vt ∧ (spots.get ⟨j, h⟩).occupied = false)) := by
  constructor
  · intro i hi
    rcases find_spot_some_spec vt spots i hi with ⟨h, hm, hf⟩
    exact ⟨h, hm.1, hm.2, fun j hj => hf j hj⟩
  · exact find_spot_none_spec vt spots

theorem c2_find_spot_first_free_match_witness :
    ∃ h : 1 < ([mkSpot 5 SpotType.compact, mkSpot 7 SpotType.regular] : List ParkingSpot).length,
      (([mkSpot 5 SpotType.compact, mkSpot 7 SpotType.regular] : List ParkingSpot).get
        ⟨1, h⟩).type = mapping VehicleType.car ∧
      (([mkSpot 5 SpotType.compact, mkSpot 7 SpotType.regular] : List ParkingSpot).get
        ⟨1, h⟩).occupied = false ∧
      ∀ j (hj : j < 1),
        ¬((([mkSpot 5 SpotType.compact, mkSpot 7 SpotType.regular] : List ParkingSpot).get
            ⟨j, Nat.lt_trans hj h⟩).type = mapping VehicleType.car ∧
          (([mkSpot 5 SpotType.compact, mkSpot 7 SpotType.regular] : List ParkingSpot).get
            ⟨j, Nat.lt_trans hj h⟩).occupied = false) :=
  (c2_find_spot_first_free_match [mkSpot 5 SpotType.compact, mkSpot 7 SpotType.regular]
    VehicleType.car).1 1 (by decide)

/-- C5: calling `exit_vehicle` with a ticket id that is not in the ledger
prints "Invalid Ticket", returns `None`, leaves the whole state (spots,
ledger, counter) unchanged, and never invokes the payment strategy —
for every payment strategy. -/
theorem c5_invalid_ticket_no_change (st : LotState) (ticketId : Nat) (pay : ℚ → Bool)
    (now : ℚ) (h : ticketId ∉ keys st.tickets) :
    exit_vehicle st ticketId pay now =
      { state := st, ret := none, printed := ["Invalid Ticket"], payCalls := [] } := by
  rw [exit_vehicle, (dictLookup_eq_none_iff st.tickets ticketId).mpr h]

theorem c5_invalid_ticket_no_change_witness :
    999 ∉ keys sampleState.tickets ∧
    exit_vehicle sampleState 999 (fun _ => true) 1 =
      { state := sampleState, ret := none, printed := ["Invalid Ticket"], payCalls := [] } :=
  ⟨by decide, c5_invalid_ticket_no_change sampleState 999 (fun _ => true) 1 (by decide)⟩

/-- C6: if no free spot of the vehicle's required class exists,
`park_vehicle` prints "Parking Full", returns `None` and changes nothing;
otherwise it marks the found spot occupied, creates a ticket referencing
the vehicle and that spot with the entry timestamp, stores it in the
ledger under the current counter, and returns it. -/
theorem c6_park_outcomes (st : LotState) (v : Vehicle) (now : ℚ) :
    (find_spot v.type st.spots = none →
      park_vehicle st v now = { state := st, ret := none, printed := ["Parking Full"] }) ∧
    (∀ i (hi : i < st.spots.length), find_spot v.type st.spots = some i →
      (park_vehicle st v now).ret =
        some { ticketId := st.ticketCounter, vehicle := v, spotIdx := i, entryTime := now } ∧
      dictLookup (park_vehicle st v now).state.tickets st.ticketCounter =
        some { ticketId := st.ticketCounter, vehicle := v, spotIdx := i, entryTime := now } ∧
      (park_vehicle st v now).state.ticketCounter = st.ticketCounter + 1 ∧
      ∀ h', ((park_vehicle st v now).state.spots.get ⟨i, h'⟩) =
        { st.spots.get ⟨i, hi⟩ with occupied := true }) := by
  constructor
  · intro h
    rw [park_vehicle, h]
  · intro i hi h
    rw [park_vehicle, h]
    refine ⟨rfl, dictLookup_dictInsert_self _ _ _, rfl, ?_⟩
    intro h'
    exact get_modifyAt_self _ _ _ hi h'

theorem c6_park_outcomes_witness :
    (0 < (initState [(2, SpotType.regular)]).spots.length) ∧
    ((park_vehicle (initState [(2, SpotType.regular)]) ⟨"V1", VehicleType.car⟩ 0).ret =
      some { ticketId := 1, vehicle := ⟨"V1", VehicleType.car⟩, spotIdx := 0, entryTime := 0 } ∧
    dictLookup (park_vehicle (initState [(2, SpotType.regular)])
        ⟨"V1", VehicleType.car⟩ 0).state.tickets 1 =
      some { ticketId := 1, vehicle := ⟨"V1", VehicleType.car⟩, spotIdx := 0, entryTime := 0 } ∧
    (park_vehicle (initState [(2, SpotType.regular)])
        ⟨"V1", VehicleType.car⟩ 0).state.ticketCounter = 1 + 1 ∧
    ∀ h', ((park_vehicle (initState [(2, SpotType.regular)])
        ⟨"V1", VehicleType.car⟩ 0).state.spots.get ⟨0, h'⟩) =
      { (initState [(2, SpotType.regular)]).spots.get ⟨0, by decide⟩ with occupied := true }) :=
  ⟨by decide,
    (c6_park_outcomes (initState [(2, SpotType.regular)]) ⟨"V1", VehicleType.car⟩ 0).2
      0 (by decide) (by decide)⟩

/-- C4: if `exit_vehicle` is called on a live ticket with a payment
strategy that declines the computed fee, the entire state (spots, ledger,
counter) is unchanged and nothing is printed; a subsequent call on the
resulting state with the same ticket id, the same clock value and an
accepting strategy succeeds and passes the same fee amount to the payment
capability. -/
theorem c4_payment_declined_retry (st : LotState) (ticketId : Nat) (t : TicketRec)
    (p q : ℚ → Bool) (now : ℚ)
    (hl : dictLookup st.tickets ticketId = some t)
    (hp : p (calculate_fee t.entryTime now) = false)
    (hq : q (calculate_fee t.entryTime now) = true) :
    exit_vehicle st ticketId p now =
      { state := st, ret := none, printed := [],
        payCalls := [calculate_fee t.entryTime now] } ∧
    (exit_vehicle (exit_vehicle st ticketId p now).state ticketId q now).printed =
      ["Exit successful"] ∧
    (exit_vehicle (exit_vehicle st ticketId p now).state ticketId q now).payCalls =
      [calculate_fee t.entryTime now] ∧
    dictLookup
      (exit_vehicle (exit_vehicle st ticketId p now).state ticketId q now).state.tickets
      ticketId = none := by
  have h1 : exit_vehicle st ticketId p now =
      { state := st, ret := none, printed := [],
        payCalls := [calculate_fee t.entryTime now] } := by
    rw [exit_vehicle, hl]
    simp only [hp, Bool.false_eq_true, if_false]
  refine ⟨h1, ?_, ?_, ?_⟩
  all_goals
    rw [h1]
    rw [exit_vehicle, hl]
    simp only [hq, if_true]
  exact dictLookup_dictDelete_self _ _

theorem c4_payment_declined_retry_witness :
    (dictLookup sampleState.tickets 1 = some ⟨1, ⟨"KA01AB1234", .car⟩, 0, 0⟩) ∧
    (exit_vehicle sampleState 1 (fun _ => false) 300 =
      { state := sampleState, ret := none, printed := [],
        payCalls := [calculate_fee 0 300] } ∧
    (exit_vehicle (exit_vehicle sampleState 1 (fun _ => false) 300).state 1
      (fun _ => true) 300).printed = ["Exit successful"] ∧
    (exit_vehicle (exit_vehicle sampleState 1 (fun _ => false) 300).state 1
      (fun _ => true) 300).payCalls = [calculate_fee 0 300] ∧
    dictLookup (exit_vehicle (exit_vehicle sampleState 1 (fun _ => false) 300).state 1
      (fun _ => true) 300).state.tickets 1 = none) :=
  ⟨by decide,
    c4_payment_declined_retry sampleState 1 ⟨1, ⟨"KA01AB1234", .car⟩, 0, 0⟩
      (fun _ => false) (fun _ => true) 300 (by decide) rfl rfl⟩

/-- C10 (frame of a successful exit): when `exit_vehicle` finds the ticket
and the payment succeeds, the only state changes are that the spot the
ticket references becomes free and the ticket's entry leaves the ledger;
every other spot, every other ledger entry and the counter are unchanged. -/
theorem c10_exit_success_frame (st : LotState) (ticketId : Nat) (t : TicketRec)
    (pay : ℚ → Bool) (now : ℚ)
    (hl : dictLookup st.tickets ticketId = some t)
    (hp : pay (calculate_fee t.entryTime now) = true)
    (hidx : t.spotIdx < st.spots.length) :
    (exit_vehicle st ticketId pay now).state.ticketCounter = st.ticketCounter ∧
    (exit_vehicle st ticketId pay now).state.spots.length = st.spots.length ∧
    (∀ h', (exit_vehicle st ticketId pay now).state.spots.get ⟨t.spotIdx, h'⟩ =
      { st.spots.get ⟨t.spotIdx, hidx⟩ with occupied := false }) ∧
    (∀ j (hj : j < st.spots.length)
      (hj' : j < (exit_vehicle st ticketId pay now).state.spots.length), j ≠ t.spotIdx →
      (exit_vehicle st ticketId pay now).state.spots.get ⟨j, hj'⟩ =
        st.spots.get ⟨j, hj⟩) ∧
    dictLookup (exit_vehicle st ticketId pay now).state.tickets ticketId = none ∧
    (∀ p ∈ st.tickets, p.1 ≠ ticketId → p ∈ (exit_vehicle st ticketId pay now).state.tickets) ∧
    (∀ p ∈ (exit_vehicle st ticketId pay now).state.tickets,
      p ∈ st.tickets ∧ p.1 ≠ ticketId) := by
  have hstate : (exit_vehicle st ticketId pay now).state =
      { spots := modifyAt (fun s => { s with occupied := false }) st.spots t.spotIdx,
        tickets := dictDelete st.tickets ticketId,
        ticketCounter := st.ticketCounter } := by
    rw [exit_vehicle, hl]
    simp only [hp, if_true]
  rw [hstate]
  refine ⟨rfl, length_modifyAt _ _ _, ?_, ?_, dictLookup_dictDelete_self _ _, ?_, ?_⟩
  · intro h'
    exact get_modifyAt_self _ _ _ hidx h'
  · intro j hj hj' hne
    exact get_modifyAt_ne _ _ _ _ hj _ hne
  · intro p hp' hpk
    exact (mem_dictDelete _ _ _).mpr ⟨hp', hpk⟩
  · intro p hp'
    exact (mem_dictDelete _ _ _).mp hp'

theorem c10_exit_success_frame_witness :
    (dictLookup sampleState.tickets 1 = some ⟨1, ⟨"KA01AB1234", .car⟩, 0, 0⟩) ∧
    (0 : Nat) < sampleState.spots.length ∧
    ((exit_vehicle sampleState 1 (fun _ => true) 300).state.ticketCounter =
      sampleState.ticketCounter ∧
    (exit_vehicle sampleState 1 (fun _ => true) 300).state.spots.length =
      sampleState.spots.length) :=
  ⟨by decide, by decide,
    let h := c10_exit_success_frame sampleState 1 ⟨1, ⟨"KA01AB1234", .car⟩, 0, 0⟩
      (fun _ => true) 300 (by decide) rfl (by decide)
    ⟨h.1, h.2.1⟩⟩

/-- C7 counterexample: the Python `exit_vehicle` has no `return` with a
value on any path, so an InvalidTicket call and a Success call return the
identical value `None` — the caller cannot tell the outcomes apart from
the returned value, only from the console output / state effects. -/
theorem c7_return_value_counterexample :
    (exit_vehicle sampleState 999 (fun _ => true) 300).printed = ["Invalid Ticket"] ∧
    (exit_vehicle sampleState 1 (fun _ => true) 300).printed = ["Exit successful"] ∧
    (exit_vehicle sampleState 999 (fun _ => true) 300).ret =
      (exit_vehicle sampleState 1 (fun _ => true) 300).ret := by
  decide

/-- C7 (amended): `exit_vehicle` always returns `None`; the three outcomes
are distinguishable only by observable effects: an unknown ticket id
prints "Invalid Ticket" and never calls the payment capability; a live
ticket whose payment succeeds prints "Exit successful"; a live ticket
whose payment is declined prints nothing and leaves the state unchanged. -/
theorem c7_exit_outcomes_observable (st : LotState) (ticketId : Nat) (pay : ℚ → Bool)
    (now : ℚ) :
    (exit_vehicle st ticketId pay now).ret = none ∧
    (dictLookup st.tickets ticketId = none →
      (exit_vehicle st ticketId pay now).printed = ["Invalid Ticket"] ∧
      (exit_vehicle st ticketId pay now).payCalls = []) ∧
    (∀ t, dictLookup st.tickets ticketId = some t →
      pay (calculate_fee t.entryTime now) = true →
      (exit_vehicle st ticketId pay now).printed = ["Exit successful"]) ∧
    (∀ t, dictLookup st.tickets ticketId = some t →
      pay (calculate_fee t.entryTime now) = false →
      (exit_vehicle st ticketId pay now).printed = [] ∧
      (exit_vehicle st ticketId pay now).state = st) := by
  refine ⟨?_, ?_, ?_, ?_⟩
  · rcases hl : dictLookup st.tickets ticketId with _ | t
    · simp [exit_vehicle, hl]
    · rcases hpb : pay (calculate_fee t.entryTime now) with _ | _ <;>
        simp [exit_vehicle, hl, hpb]
  · intro hl
    simp [exit_vehicle, hl]
  · intro t hl hpb
    simp [exit_vehicle, hl, hpb]
  · intro t hl hpb
    simp [exit_vehicle, hl, hpb]

theorem c7_exit_outcomes_observable_witness :
    dictLookup sampleState.tickets 999 = none ∧
    ((exit_vehicle sampleState 999 (fun _ => true) 300).printed = ["Invalid Ticket"] ∧
      (exit_vehicle sampleState 999 (fun _ => true) 300).payCalls = []) :=
  ⟨by decide,
    (c7_exit_outcomes_observable sampleState 999 (fun _ => true) 300).2.1 (by decide)⟩

theorem park_success_spec (st : LotState) (v : Vehicle) (now : ℚ) (t : TicketRec)
    (h : (park_vehicle st v now).ret = some t) :
    t.ticketId = st.ticketCounter ∧
    (park_vehicle st v now).state.ticketCounter = st.ticketCounter + 1 := by
  rcases hf : find_spot v.type st.spots with _ | i
  · rw [park_vehicle, hf] at h
    cases h
  · rw [park_vehicle, hf] at h ⊢
    cases Option.some.inj h
    exact ⟨rfl, rfl⟩

theorem step_counter_mono (st : LotState) (op : Op) :
    st.ticketCounter ≤ (step st op).ticketCounter := by
  rcases op with ⟨v, now⟩ | ⟨tid, pay, now⟩
  · rcases hf : find_spot v.type st.spots with _ | i
    · simp [step, park_vehicle, hf]
    · simp [step, park_vehicle, hf]
  · rcases hl : dictLookup st.tickets tid with _ | t
    · simp [step, exit_vehicle, hl]
    · rcases hpb : pay (calculate_fee t.entryTime now) with _ | _ <;>
        simp [step, exit_vehicle, hl, hpb]

theorem run_counter_mono (ops : List Op) :
    ∀ st : LotState, st.ticketCounter ≤ (run st ops).ticketCounter := by
  induction ops with
  | nil => intro st; exact Nat.le_refl _
  | cons op ops ih =>
      intro st
      exact Nat.le_trans (step_counter_mono st op) (ih (step st op))

theorem issuedIds_lb (ops : List Op) :
    ∀ st : LotState, ∀ id ∈ issuedIds st ops, st.ticketCounter ≤ id := by
  induction ops with
  | nil => intro st id h; simp [issuedIds] at h
  | cons op ops ih =>
      intro st id h
      rcases op with ⟨v, now⟩ | ⟨tid, pay, now⟩
      · rcases hr : (park_vehicle st v now).ret with _ | t
        · rw [issuedIds, hr] at h
          exact Nat.le_trans (step_counter_mono st (.park v now)) (ih _ id h)
        · rw [issuedIds, hr] at h
          rcases List.mem_cons.mp h with h | h
          · rw [h, (park_success_spec st v now t hr).1]
          · exact Nat.le_trans (step_counter_mono st (.park v now)) (ih _ id h)
      · rw [issuedIds] at h
        exact Nat.le_trans (step_counter_mono st (.depart tid pay now)) (ih _ id h)

theorem issuedIds_pairwise (ops : List Op) :
    ∀ st : LotState, (issuedIds st ops).Pairwise (· < ·) := by
  induction ops with
  | nil => intro st; simp [issuedIds]
  | cons op ops ih =>
      intro st
      rcases op with ⟨v, now⟩ | ⟨tid, pay, now⟩
      · rcases hr : (park_vehicle st v now).ret with _ | t
        · rw [issuedIds, hr]
          exact ih _
        · rw [issuedIds, hr]
          refine List.Pairwise.cons ?_ (ih _)
          intro b hb
          have h1 := issuedIds_lb ops (step st (.park v now)) b hb
          have h2 : (step st (.park v now)).ticketCounter = st.ticketCounter + 1 :=
            (park_success_spec st v now t hr).2
          rw [h2] at h1
          rw [(park_success_spec st v now t hr).1]
          exact Nat.lt_of_succ_le h1
      · rw [issuedIds]
        exact ih _

/-- C8: ticket identifiers are monotonically increasing across every
sequence of operations: the ids issued by successful `park_vehicle` calls
form a strictly increasing (hence duplicate-free) sequence, and the
ticket counter is never decremented by any operation. -/
theorem c8_ticket_ids_monotone (st : LotState) (ops : List Op) :
    (issuedIds st ops).Pairwise (· < ·) ∧
    (issuedIds st ops).Nodup ∧
    (∀ op : Op, st.ticketCounter ≤ (step st op).ticketCounter) ∧
    st.ticketCounter ≤ (run st ops).ticketCounter :=
  ⟨issuedIds_pairwise ops st,
    (issuedIds_pairwise ops st).imp Nat.ne_of_lt,
    fun op => step_counter_mono st op,
    run_counter_mono ops st⟩

/-- The bootstrap lot of the end-to-end scenario: Compact#1, Regular#2,
Large#3, all free. -/
def demoLot : LotState := initState [(1, .compact), (2, .regular), (3, .large)]

/-- First Standard-class (Car) vehicle of the scenario. -/
def carA : Vehicle := ⟨"KA01AB1234", .car⟩

/-- Second Standard-class (Car) vehicle of the scenario. -/
def carB : Vehicle := ⟨"KA02CD5678", .car⟩

/-- C9: end-to-end scenario on spots Compact#1, Regular#2, Large#3: the
first Car gets ticket 1 bound to the Regular spot (index 1, id 2), which
becomes occupied; a second Car is refused with "Parking Full" and no state
change (spots #1 and #3 in particular untouched); after the first Car
exits with a successful payment its ticket is retired and the Regular spot
is free; the second Car's retry then succeeds and binds to that spot. -/
theorem c9_end_to_end_scenario :
    (park_vehicle demoLot carA 0).ret = some ⟨1, carA, 1, 0⟩ ∧
    (park_vehicle demoLot carA 0).state.spots =
      [⟨1, .compact, false⟩, ⟨2, .regular, true⟩, ⟨3, .large, false⟩] ∧
    (park_vehicle (park_vehicle demoLot carA 0).state carB 1).ret = none ∧
    (park_vehicle (park_vehicle demoLot carA 0).state carB 1).printed = ["Parking Full"] ∧
    (park_vehicle (park_vehicle demoLot carA 0).state carB 1).state =
      (park_vehicle demoLot carA 0).state ∧
    (exit_vehicle (park_vehicle (park_vehicle demoLot carA 0).state carB 1).state 1
      (fun _ => true) 2).printed = ["Exit successful"] ∧
    (exit_vehicle (park_vehicle (park_vehicle demoLot carA 0).state carB 1).state 1
      (fun _ => true) 2).state.tickets = [] ∧
    (exit_vehicle (park_vehicle (park_vehicle demoLot carA 0).state carB 1).state 1
      (fun _ => true) 2).state.spots =
      [⟨1, .compact, false⟩, ⟨2, .regular, false⟩, ⟨3, .large, false⟩] ∧
    (park_vehicle (exit_vehicle (park_vehicle (park_vehicle demoLot carA 0).state carB 1).state
      1 (fun _ => true) 2).state carB 3).ret = some ⟨2, carB, 1, 3⟩ ∧
    (park_vehicle (exit_vehicle (park_vehicle (park_vehicle demoLot carA 0).state carB 1).state
      1 (fun _ => true) 2).state carB 3).state.spots =
      [⟨1, .compact, false⟩, ⟨2, .regular, true⟩, ⟨3, .large, false⟩] := by
  decide

/-- C1: in every state reachable from an initial state (any fixed spot
configuration, empty ledger) by park/exit operations, a spot is occupied
iff exactly one live ticket in the ledger references it, and no two live
tickets reference the same spot. -/
theorem c1_occupied_iff_unique_ticket (config : List (Nat × SpotType)) (ops : List Op) :
    (∀ i (h : i < (run (initState config) ops).spots.length),
      ((run (initState config) ops).spots.get ⟨i, h⟩).occupied = true ↔
        ∃ p ∈ (run (initState config) ops).tickets, p.2.spotIdx = i ∧
          ∀ q ∈ (run (initState config) ops).tickets, q.2.spotIdx = i → q = p) ∧
    (∀ p ∈ (run (initState config) ops).tickets,
      ∀ q ∈ (run (initState config) ops).tickets, p.2.spotIdx = q.2.spotIdx → p = q) := by
  have hinv := Inv_run ops (initState config) (Inv_initState config)
  have spotInj := List.inj_on_of_nodup_map hinv.refsNodup
  constructor
  · intro i h
    rw [hinv.occIff i h]
    constructor
    · rintro ⟨p, hp, hpi⟩
      refine ⟨p, hp, hpi, ?_⟩
      intro q hq hqi
      exact spotInj hq hp (hqi.trans hpi.symm)
    · rintro ⟨p, hp, hpi, -⟩
      exact ⟨p, hp, hpi⟩
  · intro p hp q hq hpq
    exact spotInj hp hq hpq

theorem c1_occupied_iff_unique_ticket_witness :
    ((run (initState [(1, SpotType.compact)]) [Op.park ⟨"B1", VehicleType.bike⟩ 0]).spots.get
        ⟨0, by decide⟩).occupied = true ↔
      ∃ p ∈ (run (initState [(1, SpotType.compact)])
          [Op.park ⟨"B1", VehicleType.bike⟩ 0]).tickets, p.2.spotIdx = 0 ∧
        ∀ q ∈ (run (initState [(1, SpotType.compact)])
            [Op.park ⟨"B1", VehicleType.bike⟩ 0]).tickets, q.2.spotIdx = 0 → q = p :=
  (c1_occupied_iff_unique_ticket [(1, SpotType.compact)]
    [Op.park ⟨"B1", VehicleType.bike⟩ 0]).1 0 (by decide)
